import Mathlib

/-!
Verification development for the OSIM classification engine of osidb:
predicate evaluation (Check), state acceptance (State), workflow acceptance
and sequential state resolution (Workflow), and priority-based workflow
selection (WorkflowFramework), together with the record-level stored vs.
computed classification lifecycle.

The engine implementation lives in `apps/osim/models.py`,
`apps/osim/workflow.py` and `osidb/models.py`, which are not part of the
source snapshot (only their tests under `src/apps/osim/tests/test_models.py`
are). The definitions below are therefore modelled from the specification
(spec.md §3, §4, §6), kept consistent with the behaviour exercised by the
tests in the snapshot.
-/

namespace Osim

/-- Modelled from the spec: the Record adapter capability of §6 that the
engine consumes, since the concrete record type (`osidb.models.Flaw`) is
missing from the snapshot. `scalar` returns the current value of a named
scalar property (`none` = null/unset), `relationSize` the element count of a
named relational/collection property, `boolProp` the value of a named
canonical boolean predicate, and `relational` tells which property names are
declared relational (collection-valued). Per §6 the accessors are resolvable
for every target appearing in a registered Check, so evaluation is total. -/
structure Record where
  scalar : String → Option String
  relationSize : String → Nat
  boolProp : String → Bool
  relational : String → Bool

/-- Modelled from the spec: the four Check modes of §4.1 (`apps/osim/models.py`
is missing from the snapshot). -/
inductive Mode where
  | has
  | not
  | boolTrue
  | boolFalse
deriving DecidableEq

/-- Modelled from the spec: a Check (§3, §4.1) — an immutable value built
from a requirement string, holding the original string verbatim, the parsed
mode and the resolved target property identifier. -/
structure Check where
  name : String
  mode : Mode
  target : String
deriving DecidableEq

/-- Modelled from the spec: the fixed alias table of §4.1 mapping short human
names to canonical property identifiers (`cve` → `cve_id`, `cwe` → `cwe_id`),
applied only for HAS/NOT modes. -/
def aliasResolve (s : String) : String :=
  if s = "cve" then "cve_id"
  else if s = "cwe" then "cwe_id"
  else s

/-- Modelled from the spec: the fixed boolean predicate table of §4.1 mapping
short names to the canonical boolean-valued property they read
(`major_incident` → `is_major_incident`, `embargoed` → `embargoed`). -/
def boolTable (s : String) : Option String :=
  if s = "major_incident" then some "is_major_incident"
  else if s = "embargoed" then some "embargoed"
  else none

/-- Modelled from the spec: replacing spaces in a requirement token by the
property's canonical separator (underscore), §4.1 step 1; the tests also
exercise it for the NOT mode ("not major incident"). -/
def underscored (s : String) : String :=
  ⟨s.data.map (fun c => if c = ' ' then '_' else c)⟩

/-- Modelled from the spec: checks whether the requirement string starts with
the given leading token (§4.1 longest-match parsing). -/
def leadsWith (tok s : String) : Bool :=
  tok.data.isPrefixOf s.data

/-- Modelled from the spec: the remainder of the requirement string after a
four-character leading token such as "has " or "not ". -/
def remainderAfter4 (s : String) : String :=
  ⟨s.data.drop 4⟩

/-- Modelled from the spec: Check construction by parsing a requirement
string (§4.1). `none` models `MalformedRequirementError`. Step 1: a "has "
leading token gives mode HAS with the underscored, alias-resolved remainder
as target. Step 2: a "not " leading token alias-resolves the remainder; if it
names a boolean predicate the mode is BOOL_FALSE on the canonical boolean
property, otherwise NOT. Step 3: a bare string naming a boolean predicate
gives BOOL_TRUE; anything else is malformed. -/
def Check.parse (req : String) : Option Check :=
  if leadsWith "has " req then
    some ⟨req, Mode.has, aliasResolve (underscored (remainderAfter4 req))⟩
  else if leadsWith "not " req then
    let t := aliasResolve (underscored (remainderAfter4 req))
    match boolTable t with
    | some b => some ⟨req, Mode.boolFalse, b⟩
    | none => some ⟨req, Mode.not, t⟩
  else
    match boolTable (underscored req) with
    | some b => some ⟨req, Mode.boolTrue, b⟩
    | none => none

/-- Modelled from the spec: the emptiness test of §4.1 — a property "has" a
value iff, for a declared relational property, the referenced collection has
at least one element, and for a scalar property, the value is non-null and a
non-empty string. -/
def hasValue (r : Record) (t : String) : Bool :=
  if r.relational t then decide (0 < r.relationSize t)
  else
    match r.scalar t with
    | none => false
    | some v => !(v == "")

/-- Modelled from the spec: the evaluation contract `check(record) -> bool`
of §4.1. HAS is the emptiness test, NOT its negation, BOOL_TRUE/BOOL_FALSE
compare the canonical boolean property against true/false. Pure: evaluation
never mutates the record. -/
def Check.eval (c : Check) (r : Record) : Bool :=
  match c.mode with
  | Mode.has => hasValue r c.target
  | Mode.not => !(hasValue r c.target)
  | Mode.boolTrue => r.boolProp c.target
  | Mode.boolFalse => !(r.boolProp c.target)

/-- Modelled from the spec: parse-then-evaluate a requirement string on a
record; `none` models a parse failure (`MalformedRequirementError`). -/
def evalReq (s : String) (r : Record) : Option Bool :=
  (Check.parse s).map (fun c => c.eval r)

/-- Modelled from the spec: a State (§3, §4.2) — an ordered step in a
workflow's lifecycle owning an ordered list of Checks. -/
structure State where
  name : String
  requirements : List Check
deriving DecidableEq

/-- Modelled from the spec: `State.accepts` (§4.2) — conjunction over the
requirements; an empty sequence accepts every record. -/
def State.accepts (s : State) (r : Record) : Bool :=
  s.requirements.all (fun c => c.eval r)

/-- Modelled from the spec: a Workflow (§3, §4.3) — a named, prioritized
ruleset owning ordered entry conditions and ordered lifecycle states. The
non-empty-states invariant of §3 is not enforced at construction (the tests
build workflows with `states: []` and assign the list afterwards). -/
structure Workflow where
  name : String
  description : String
  priority : Int
  conditions : List Check
  states : List State
deriving DecidableEq

/-- Modelled from the spec: post-construction assignment of the state list
(`workflow.states = ...` in the tests; §3 "immutable after registration
except for state list assignment during construction"). -/
def Workflow.setStates (w : Workflow) (ss : List State) : Workflow :=
  { w with states := ss }

/-- Modelled from the spec: `Workflow.accepts` (§4.3) — conjunction over the
entry conditions; an empty sequence accepts every record (a default
workflow). -/
def Workflow.accepts (w : Workflow) (r : Record) : Bool :=
  w.conditions.all (fun c => c.eval r)

/-- Modelled from the spec: the sequential state walk of §4.3 — walk the
states in declared order and return the furthest state of the accepting
run, stopping at the first non-accepting state and never looking further
ahead. `none` models the §7 edge case of a state list with no accepting
first state (`NoAcceptingStateError`). -/
def classifyStates (states : List State) (r : Record) : Option State :=
  match states with
  | [] => none
  | s :: rest =>
    if s.accepts r then
      match classifyStates rest r with
      | some s2 => some s2
      | none => some s
    else none

/-- Modelled from the spec: `Workflow.classify` (§4.3) — the furthest state
reached by walking `states` in declared order. -/
def Workflow.classify (w : Workflow) (r : Record) : Option State :=
  classifyStates w.states r

/-- Modelled from the spec: the WorkflowFramework registry (§3, §4.4) —
the ordered list of registered workflows, in registration order. -/
structure WorkflowFramework where
  workflows : List Workflow
deriving DecidableEq

/-- Modelled from the spec: `register_workflow` (§4.4) — appends to the
registry; no uniqueness check. -/
def WorkflowFramework.register_workflow
    (fw : WorkflowFramework) (w : Workflow) : WorkflowFramework :=
  ⟨fw.workflows ++ [w]⟩

/-- Modelled from the spec: selection of the element with maximum priority,
tie-broken by registration order — the first registered among
equal-priority workflows wins (§4.4 step 2). A strictly higher priority
further down the list displaces the current choice; an equal one does not. -/
def highestPriority : List Workflow → Option Workflow
  | [] => none
  | w :: rest =>
    match highestPriority rest with
    | none => some w
    | some w2 => if w2.priority > w.priority then some w2 else some w

/-- Modelled from the spec: `WorkflowFramework.classify` (§4.4) restricted to
workflow selection (the `state=False` form used by the tests) — the
highest-priority registered workflow accepting the record; `none` models
`NoAcceptingWorkflowError`. -/
def WorkflowFramework.classify (fw : WorkflowFramework) (r : Record) :
    Option Workflow :=
  highestPriority (fw.workflows.filter (fun w => w.accepts r))

/-- Modelled from the spec: the full `classify(record, with_state=True)`
form of §4.4, additionally resolving the state inside the selected
workflow. -/
def WorkflowFramework.classifyWithState (fw : WorkflowFramework)
    (r : Record) : Option (Workflow × Option State) :=
  (fw.classify r).map (fun w => (w, w.classify r))

/-- Modelled from the spec: a classification result (§3) — a
`(workflow_name, state_name)` pair. -/
structure ClassificationPair where
  workflow : String
  state : String
deriving DecidableEq

/-- Modelled from the spec: the record-level view of §4.5 — the record's
current attribute values together with the stored (persisted)
classification pair, which may diverge from the computed one. -/
structure Flaw where
  record : Record
  osim_workflow : String
  osim_state : String

/-- Modelled from the spec: the stored classification accessor of §4.5 — a
plain pair read accessor independent of recomputation. -/
def Flaw.classification (fl : Flaw) : ClassificationPair :=
  ⟨fl.osim_workflow, fl.osim_state⟩

/-- Modelled from the spec: the stored classification write accessor of
§4.5 — assigning a new stored pair touches only the stored fields. -/
def Flaw.setClassification (fl : Flaw) (c : ClassificationPair) : Flaw :=
  { fl with osim_workflow := c.workflow, osim_state := c.state }

/-- Modelled from the spec: the computed classification of §3/§4.5 — the
live result of re-running the full framework algorithm against the current
attribute values, as a name pair; `none` models the error outcomes
(`NoAcceptingWorkflowError`, and the §7 no-accepting-state edge case). -/
def computeClassification (fw : WorkflowFramework) (r : Record) :
    Option ClassificationPair :=
  match fw.classify r with
  | none => none
  | some w =>
    match w.classify r with
    | none => none
    | some s => some ⟨w.name, s.name⟩

/-- Modelled from the spec: `Flaw.classify` (§4.5) — the computed
classification, re-run from the record's current attribute values; it never
reads or writes the stored pair. -/
def Flaw.classify (fw : WorkflowFramework) (fl : Flaw) :
    Option ClassificationPair :=
  computeClassification fw fl.record

/-- Modelled from the spec: `adjust_classification()` (§4.5) — recompute via
the computed classification and, if the result differs from the stored
classification, overwrite the stored classification; otherwise leave it
untouched. `none` models a propagated classification error. -/
def Flaw.adjust_classification (fw : WorkflowFramework) (fl : Flaw) :
    Option Flaw :=
  match computeClassification fw fl.record with
  | none => none
  | some c =>
    some (if c = fl.classification then fl else fl.setClassification c)

/-- Holds of an optional value when the predicate holds of its content;
vacuously true of `none`. Used to say "the state after the accepting run,
when it exists, rejects the record". -/
def optHolds (o : Option State) (p : State → Bool) : Bool :=
  match o with
  | none => true
  | some a => p a

/-- The parsed form of the requirement string "has description" (test
fixture mirroring `TestWorkflow.test_classify`). -/
def chkDesc : Check := ⟨"has description", Mode.has, "description"⟩

/-- The parsed form of the requirement string "has title" (test fixture
mirroring `TestWorkflow.test_classify`). -/
def chkTitle : Check := ⟨"has title", Mode.has, "title"⟩

/-- A concrete record with only `description` set, mirroring the flaw of
`TestWorkflow.test_classify` after `flaw.description` is assigned. -/
def rDesc : Record where
  scalar := fun p => if p == "description" then some "valid description" else none
  relationSize := fun _ => 0
  boolProp := fun _ => false
  relational := fun p =>
    p == "affects" || p == "cvss_scores" || p == "package_versions"

/-- A concrete record with only `title` set: it satisfies the later state's
requirement ("has title") but not the earlier one ("has description"). -/
def rTitle : Record where
  scalar := fun p => if p == "title" then some "valid title" else none
  relationSize := fun _ => 0
  boolProp := fun _ => false
  relational := fun p =>
    p == "affects" || p == "cvss_scores" || p == "package_versions"

/-- A concrete record whose relational property `affects` has one element,
mirroring `TestCheck.test_relational_property` after `AffectFactory`. -/
def rAff : Record where
  scalar := fun _ => none
  relationSize := fun p => if p == "affects" then 1 else 0
  boolProp := fun _ => false
  relational := fun p =>
    p == "affects" || p == "cvss_scores" || p == "package_versions"

/-- The unconditional entry state "new" of the three-step test workflow. -/
def stNew : State := ⟨"new", []⟩

/-- The state "first state" requiring "has description". -/
def stFirst : State := ⟨"first state", [chkDesc]⟩

/-- The state "second state" requiring "has title". -/
def stSecond : State := ⟨"second state", [chkTitle]⟩

/-- The three-step test workflow of `TestWorkflow.test_classify`. -/
def wTest : Workflow :=
  ⟨"test workflow", "a three step workflow to test classification", 0, [],
    [stNew, stFirst, stSecond]⟩

/-- Test workflow "A" with empty conditions and priority 1. -/
def wfA : Workflow := ⟨"A", "", 1, [], [⟨"DRAFT", []⟩]⟩

/-- Test workflow "B" with empty conditions and priority 2. -/
def wfB : Workflow := ⟨"B", "", 2, [], [⟨"DRAFT", []⟩]⟩

/-- Test workflow "C" with empty conditions and priority 3. -/
def wfC : Workflow := ⟨"C", "", 3, [], [⟨"DRAFT", []⟩]⟩

/-- A framework with the three default workflows registered in the order
A, B, C (priorities 1, 2, 3), mirroring
`TestWorkflowFramework.test_classify_priority`. -/
def f1 : WorkflowFramework :=
  (((WorkflowFramework.mk []).register_workflow wfA).register_workflow
      wfB).register_workflow wfC

/-- A default workflow with empty conditions and a single unconditional
state, mirroring the default workflow of `TestFlaw.test_adjust`. -/
def wfDefault : Workflow :=
  ⟨"default workflow", "", 0, [], [⟨"DRAFT", []⟩]⟩

/-- A framework holding only the default workflow. -/
def fw0 : WorkflowFramework :=
  (WorkflowFramework.mk []).register_workflow wfDefault

/-- A flaw over `rDesc` whose stored classification is still unset. -/
def fl0 : Flaw := ⟨rDesc, "", ""⟩

/-- Claim C6: for every requirement set R and record r, `State(R).accepts r`
is the conjunction of the Checks of R on r; a State with empty requirements
accepts every record, and a State rejects any record for which at least one
of its Checks is false. -/
theorem state_accepts_conjunction (n : String) (R : List Check) (r : Record) :
    (State.mk n R).accepts r = R.all (fun c => c.eval r) ∧
    (R = [] → (State.mk n R).accepts r = true) ∧
    (∀ c, c ∈ R → c.eval r = false → (State.mk n R).accepts r = false) := by
  refine ⟨rfl, ?_, ?_⟩
  · intro h
    subst h
    rfl
  · intro c hc hf
    unfold State.accepts
    cases hall : R.all (fun c => c.eval r) with
    | false => rfl
    | true =>
      have htrue := List.all_eq_true.mp hall c hc
      simp [hf] at htrue

/-- Witness for C6: the empty-requirements state accepts the concrete
record `rDesc`, by the second conjunct of `state_accepts_conjunction`. -/
theorem state_accepts_conjunction_witness :
    (State.mk "random name" []).accepts rDesc = true :=
  (state_accepts_conjunction "random name" [] rDesc).2.1 rfl

/-- Claim C7: for every workflow, `accepts` is the conjunction over its
conditions; a workflow with empty conditions accepts every record, and a
record for which at least one condition is false (so one satisfying only a
proper subset of a non-empty conditions list) is rejected. -/
theorem workflow_accepts_conjunction (n d : String) (p : Int)
    (cs : List Check) (ss : List State) (r : Record) :
    (Workflow.mk n d p cs ss).accepts r = cs.all (fun c => c.eval r) ∧
    (cs = [] → (Workflow.mk n d p cs ss).accepts r = true) ∧
    (∀ c, c ∈ cs → c.eval r = false →
      (Workflow.mk n d p cs ss).accepts r = false) := by
  refine ⟨rfl, ?_, ?_⟩
  · intro h
    subst h
    rfl
  · intro c hc hf
    unfold Workflow.accepts
    cases hall : cs.all (fun c => c.eval r) with
    | false => rfl
    | true =>
      have htrue := List.all_eq_true.mp hall c hc
      simp [hf] at htrue

/-- Witness for C7: the record `rDesc` satisfies "has description" but not
"has title", so the workflow conditioned on both rejects it, by the third
conjunct of `workflow_accepts_conjunction`. -/
theorem workflow_accepts_conjunction_witness :
    (Workflow.mk "w" "" 0 [chkDesc, chkTitle] []).accepts rDesc = false :=
  (workflow_accepts_conjunction "w" "" 0 [chkDesc, chkTitle] [] rDesc).2.2
    chkTitle (by decide) (by decide)

/-- Claim C8: alias equivalence — for every record, "has cve" and
"has cve_id" evaluate to the same boolean result, and likewise "has cwe"
and "has cwe_id", because alias resolution maps the short name to the
canonical property identifier at Check construction. -/
theorem check_alias_equivalence (r : Record) :
    evalReq "has cve" r = evalReq "has cve_id" r ∧
    evalReq "has cwe" r = evalReq "has cwe_id" r :=
  ⟨rfl, rfl⟩

/-- Claim C9: for every declared relational property and every record, a
HAS-mode Check on it evaluates to true iff the referenced collection has at
least one element. -/
theorem check_has_relational (r : Record) (n t : String)
    (h : r.relational t = true) :
    ((Check.mk n Mode.has t).eval r = true ↔ 0 < r.relationSize t) := by
  simp [Check.eval, hasValue, h]

/-- Witness for C9: on the concrete record `rAff`, whose relational
property "affects" holds one element, the HAS Check evaluates true. -/
theorem check_has_relational_witness :
    (Check.mk "has affects" Mode.has "affects").eval rAff = true :=
  (check_has_relational rAff "has affects" "affects" rfl).mpr (by decide)

/-- Claim C10: Workflow construction does not enforce the non-empty-states
invariant — a workflow with an empty states list is constructible and its
`accepts` evaluates without error; the states list can be assigned after
construction; and `accepts` depends only on the conditions, never on the
states list. -/
theorem workflow_states_ignored_by_accepts (w : Workflow) (ss : List State)
    (n d : String) (p : Int) (cs : List Check) (r : Record) :
    (w.setStates ss).accepts r = w.accepts r ∧
    (w.setStates ss).states = ss ∧
    (Workflow.mk n d p cs []).accepts r = cs.all (fun c => c.eval r) :=
  ⟨rfl, rfl, rfl⟩

/-- The sequential walk lands on index k whenever every state up to k
accepts the record and the state after k (when there is one) rejects it. -/
theorem classifyStates_run (r : Record) :
    ∀ (l : List State) (k : Nat) (hk : k < l.length),
      (l.take (k + 1)).all (fun s => s.accepts r) = true →
      optHolds l[k + 1]? (fun s => !(s.accepts r)) = true →
      classifyStates l r = some l[k] := by
  intro l
  induction l with
  | nil =>
    intro k hk
    simp at hk
  | cons s rest ih =>
    intro k hk hall hnext
    simp only [List.take_succ_cons, List.all_cons, Bool.and_eq_true] at hall
    have hs : s.accepts r = true := hall.1
    cases k with
    | zero =>
      have hnone : classifyStates rest r = none := by
        cases rest with
        | nil => rfl
        | cons s1 r1 =>
          have h1 : s1.accepts r = false := by
            simp only [List.getElem?_cons_succ, List.getElem?_cons_zero,
              optHolds] at hnext
            simpa using hnext
          simp [classifyStates, h1]
      simp [classifyStates, hs, hnone]
    | succ k1 =>
      have hk1 : k1 < rest.length := by
        simpa using hk
      have hall1 : (rest.take (k1 + 1)).all (fun s => s.accepts r) = true :=
        hall.2
      have hnext1 : optHolds rest[k1 + 1]? (fun s => !(s.accepts r)) = true := by
        simpa only [List.getElem?_cons_succ] using hnext
      have hres := ih k1 hk1 hall1 hnext1
      simp [classifyStates, hs, hres]

/-- Claim C1: `Workflow.classify` walks the states strictly in declared
order and returns states[k] for the largest k such that states[0..k] all
accept the record, stopping at the first non-accepting state — so a record
whose attributes satisfy only a later state's requirements is classified
into the furthest accepting state of the leading run, never the later
state. -/
theorem workflow_classify_no_skip (w : Workflow) (r : Record) (k : Nat)
    (hk : k < w.states.length)
    (hall : (w.states.take (k + 1)).all (fun s => s.accepts r) = true)
    (hnext : optHolds w.states[k + 1]? (fun s => !(s.accepts r)) = true) :
    w.classify r = some w.states[k] := by
  unfold Workflow.classify
  exact classifyStates_run r w.states k hk hall hnext

/-- Witness for C1: the record `rTitle` satisfies only the later state's
requirement ("has title", not "has description"), and the three-step test
workflow classifies it into the unconditional entry state "new", never into
"second state". -/
theorem workflow_classify_no_skip_witness :
    wTest.classify rTitle = some stNew ∧ stSecond.accepts rTitle = true :=
  ⟨workflow_classify_no_skip wTest rTitle 0 (by decide) (by decide)
      (by decide),
    by decide⟩

/-- The priority selection yields nothing exactly on the empty list. -/
theorem highestPriority_eq_none (l : List Workflow) :
    highestPriority l = none ↔ l = [] := by
  cases l with
  | nil => simp [highestPriority]
  | cons a rest =>
    simp only [highestPriority]
    cases highestPriority rest with
    | none => simp
    | some w2 =>
      by_cases hp : w2.priority > a.priority
      · simp [hp]
      · simp [hp]

/-- The priority selection returns the first element of maximal priority:
everything before it is strictly lower, everything after it no higher. -/
theorem highestPriority_first_max :
    ∀ (l : List Workflow) (w : Workflow), highestPriority l = some w →
      ∃ pre post, l = pre ++ w :: post ∧
        (∀ x ∈ pre, x.priority < w.priority) ∧
        (∀ x ∈ post, x.priority ≤ w.priority) := by
  intro l
  induction l with
  | nil =>
    intro w h
    cases h
  | cons a rest ih =>
    intro w h
    simp only [highestPriority] at h
    cases hrest : highestPriority rest with
    | none =>
      rw [hrest] at h
      cases h
      have hnil : rest = [] := (highestPriority_eq_none rest).mp hrest
      subst hnil
      exact ⟨[], [], rfl, by simp, by simp⟩
    | some w2 =>
      rw [hrest] at h
      have hif : (if w2.priority > a.priority then some w2 else some a) =
          some w := h
      by_cases hp : w2.priority > a.priority
      · rw [if_pos hp] at hif
        cases hif
        obtain ⟨pre, post, heq, hpre, hpost⟩ := ih w hrest
        refine ⟨a :: pre, post, by rw [heq, List.cons_append], ?_, hpost⟩
        intro x hx
        rcases List.mem_cons.mp hx with hxa | hxp
        · rw [hxa]
          exact hp
        · exact hpre x hxp
      · rw [if_neg hp] at hif
        cases hif
        obtain ⟨pre, post, heq, hpre, hpost⟩ := ih w2 hrest
        refine ⟨[], rest, rfl, by simp, ?_⟩
        intro x hx
        have hw2a : w2.priority ≤ a.priority := not_lt.mp hp
        rw [heq] at hx
        rcases List.mem_append.mp hx with hxp | hxr
        · exact le_trans (le_of_lt (hpre x hxp)) hw2a
        · rcases List.mem_cons.mp hxr with hxw | hxpost
          · rw [hxw]
            exact hw2a
          · exact le_trans (hpost x hxpost) hw2a

/-- Claim C2: `WorkflowFramework.classify` selects, among the accepting
workflows, the one with maximum priority, and among equal maximal
priorities the first registered: the selected workflow accepts the record,
every accepting workflow registered before it has strictly lower priority,
and every accepting workflow after it has priority no higher. -/
theorem framework_classify_priority (fw : WorkflowFramework) (r : Record)
    (w : Workflow) (h : fw.classify r = some w) :
    w.accepts r = true ∧
    ∃ pre post,
      fw.workflows.filter (fun x => x.accepts r) = pre ++ w :: post ∧
      (∀ x ∈ pre, x.priority < w.priority) ∧
      (∀ x ∈ post, x.priority ≤ w.priority) := by
  unfold WorkflowFramework.classify at h
  obtain ⟨pre, post, heq, hpre, hpost⟩ := highestPriority_first_max _ w h
  constructor
  · have hmem : w ∈ fw.workflows.filter (fun x => x.accepts r) := by
      rw [heq]
      exact List.mem_append_right _ (List.mem_cons_self _ _)
    exact (List.mem_filter.mp hmem).2
  · exact ⟨pre, post, heq, hpre, hpost⟩

/-- Witness for C2: among the three empty-condition workflows of `f1` with
priorities 1, 2, 3, classification selects `wfC`, the accepting workflow of
priority 3. -/
theorem framework_classify_priority_witness :
    wfC.accepts rDesc = true ∧ wfC.priority = 3 :=
  ⟨(framework_classify_priority f1 rDesc wfC (by decide)).1, rfl⟩

/-- Claim C3: `WorkflowFramework.classify` yields no workflow (the
`NoAcceptingWorkflowError` outcome) exactly when no registered workflow
accepts the record; hence when a workflow with empty conditions is
registered, classification succeeds for every record. -/
theorem framework_classify_no_accepting (fw : WorkflowFramework)
    (r : Record) :
    (fw.classify r = none ↔ ∀ w ∈ fw.workflows, w.accepts r = false) ∧
    ((∃ w ∈ fw.workflows, w.conditions = []) →
      ∃ w2, fw.classify r = some w2) := by
  have hiff : fw.classify r = none ↔ ∀ w ∈ fw.workflows, w.accepts r = false := by
    unfold WorkflowFramework.classify
    rw [highestPriority_eq_none, List.filter_eq_nil_iff]
    constructor
    · intro h w hw
      have := h w hw
      simpa using this
    · intro h w hw
      simp [h w hw]
  refine ⟨hiff, ?_⟩
  intro hdef
  obtain ⟨w0, hw0, hc0⟩ := hdef
  cases hcl : fw.classify r with
  | some w2 => exact ⟨w2, rfl⟩
  | none =>
    exfalso
    have hfalse := hiff.mp hcl w0 hw0
    have hacc : w0.accepts r = true := by
      unfold Workflow.accepts
      rw [hc0]
      rfl
    rw [hacc] at hfalse
    cases hfalse

/-- Witness for C3: `f1` registers the empty-condition workflow `wfA`, so
classification of the concrete record `rDesc` succeeds. -/
theorem framework_classify_no_accepting_witness :
    (f1.classify rDesc).isSome = true := by
  obtain ⟨w2, hw2⟩ :=
    (framework_classify_no_accepting f1 rDesc).2 ⟨wfA, by decide, rfl⟩
  rw [hw2]
  rfl

/-- Claim C4: `adjust_classification` is idempotent — if adjusting a flaw
succeeds and yields a stored classification, adjusting the result again
succeeds and changes nothing. -/
theorem adjust_classification_idempotent (fw : WorkflowFramework)
    (fl fl2 : Flaw) (h : Flaw.adjust_classification fw fl = some fl2) :
    Flaw.adjust_classification fw fl2 = some fl2 := by
  unfold Flaw.adjust_classification at h ⊢
  cases hc : computeClassification fw fl.record with
  | none =>
    rw [hc] at h
    cases h
  | some c =>
    rw [hc] at h
    injection h with h2
    by_cases hcc : c = fl.classification
    · rw [if_pos hcc] at h2
      subst h2
      rw [hc]
      show some (if c = fl.classification then fl
        else fl.setClassification c) = some fl
      rw [if_pos hcc]
    · rw [if_neg hcc] at h2
      subst h2
      rw [show (fl.setClassification c).record = fl.record from rfl, hc]
      show some (if c = (fl.setClassification c).classification
          then fl.setClassification c
          else (fl.setClassification c).setClassification c) =
        some (fl.setClassification c)
      rw [if_pos (show c = (fl.setClassification c).classification from rfl)]

/-- Witness for C4: adjusting the already-adjusted flaw `fl0` (stored
classification "default workflow"/"DRAFT") changes nothing. -/
theorem adjust_classification_idempotent_witness :
    Flaw.adjust_classification fw0
        (Flaw.setClassification fl0 ⟨"default workflow", "DRAFT"⟩) =
      some (Flaw.setClassification fl0 ⟨"default workflow", "DRAFT"⟩) :=
  adjust_classification_idempotent fw0 fl0 _ rfl

/-- Claim C5: the computed classification reads only the record's current
attribute values — two flaws with the same record classify identically, so
assigning a new stored classification (which touches only the stored pair
and leaves the record unchanged) never changes the computed result, and the
computed operation never touches the stored pair. -/
theorem flaw_classify_frame (fw : WorkflowFramework) (fl1 fl2 : Flaw)
    (h : fl1.record = fl2.record) :
    Flaw.classify fw fl1 = Flaw.classify fw fl2 ∧
    (∀ c : ClassificationPair,
      (Flaw.setClassification fl1 c).record = fl1.record ∧
      (Flaw.setClassification fl1 c).classification = c) := by
  refine ⟨?_, fun c => ⟨rfl, rfl⟩⟩
  unfold Flaw.classify
  rw [h]

/-- Witness for C5: assigning the stored pair ("a", "b") to the concrete
flaw `fl0` leaves the computed classification unchanged. -/
theorem flaw_classify_frame_witness :
    Flaw.classify fw0 fl0 =
      Flaw.classify fw0 (Flaw.setClassification fl0 ⟨"a", "b"⟩) :=
  (flaw_classify_frame fw0 fl0 (Flaw.setClassification fl0 ⟨"a", "b"⟩)
      rfl).1

end Osim
